import Mathlib

/-!
# Verification of the ImageSmith multi-instance generation core

Shallow embedding of the repository's generation core:

* `src/core/generation_queue.py` — `GenerationQueue`
* `src/comfy/load_balancer.py`   — `LoadBalancer` and its strategies
* `src/comfy/instance.py`        — `ComfyUIInstance` bookkeeping
* `src/comfy/client.py`          — `ComfyUIClient.generate`, `upload_image`,
  `listen_for_updates`

Python dicts keyed by strings are embedded as association lists, sets as
duplicate-free lists, timestamps as integers, and the cooperative
single-threaded event loop as sequential composition.  Fallible operations
return `Except String`; the HTTP / websocket environment is passed in
explicitly (a list of responses, respectively a list of received messages —
exhausting the message list stands for the websocket closing).

Definitions come first, followed by all theorems.
-/

namespace ImageSmith

/-! ## GenerationQueue (`src/core/generation_queue.py`) -/

/-- One queued generation closure, represented by the outcome of awaiting it:
`.ok ()` if it returns, `.error e` if it raises. -/
abbrev Job := Except String Unit

/-- State of `GenerationQueue`: the FIFO of queued closures, the `processing`
flag, and the `current_task` handle (represented by the job it runs). -/
structure QueueState where
  queue : List Job
  processing : Bool
  currentTask : Option Job
deriving Repr

/-- `GenerationQueue.process_queue`: if `processing` is already set, return at
once; otherwise set `processing`, repeatedly pop the next closure, record it in
`current_task`, await it, catch and log any exception it raises, clear
`current_task`, and loop until the queue is empty; a `finally` clears
`processing`.  Returns the final state together with the outcomes of the jobs
that were awaited, in order (exceptions are swallowed inside the loop, so the
call itself never raises). -/
def drainLoop (s : QueueState) : QueueState × List Job :=
  match h : s.queue with
  | [] => (s, [])
  | j :: rest =>
      -- pop the next closure, record it as the current task, await it
      -- (its outcome is `j`), catch and log any exception, then in the
      -- per-job `finally` clear the current task and mark it done
      let (s', ran) :=
        drainLoop { queue := rest, processing := s.processing, currentTask := none }
      (s', j :: ran)
termination_by s.queue.length
decreasing_by simp [h]

def processQueue (s : QueueState) : QueueState × List Job :=
  if s.processing then (s, [])
  else
    let (s', ran) := drainLoop { s with processing := true }
    ({ s' with processing := false }, ran)

/-! ## Load balancer (`src/comfy/load_balancer.py`) -/

/-- The slice of `ComfyUIInstance` state read and written by the load
balancer: connection flag, usage timestamps for `is_timed_out`, the
`active_prompts` set, and the selection inputs `weight` /
`active_generations`.  `id` stands for Python object identity. -/
structure LBInstance where
  id : Nat
  connected : Bool
  lastUsed : Int
  timeout : Int
  activePrompts : List String
  weight : Nat
  activeGenerations : Nat
deriving Repr, DecidableEq

/-- `ComfyUIInstance.is_timed_out`: false when `timeout <= 0`, else true iff
`now - last_used` exceeds the timeout. -/
def LBInstance.isTimedOut (i : LBInstance) (now : Int) : Bool :=
  if i.timeout ≤ 0 then false else decide (now - i.lastUsed > i.timeout)

/-- `LoadBalanceStrategy`. -/
inductive Strategy where
  | roundRobin
  | random
  | leastBusy
deriving Repr, DecidableEq

/-- `LoadBalancer` state: the live instance list and the round-robin cursor
(`current_instance_index`). -/
structure LB where
  instances : List LBInstance
  cursor : Nat
deriving Repr, DecidableEq

/-- `LoadBalancer._select_instance_round_robin`: filter to connected
instances, fail if none, otherwise index by the persistent cursor modulo the
current length and advance the cursor by one. -/
def selectRoundRobin (lb : LB) : Except String (LBInstance × LB) :=
  let connectedInstances := lb.instances.filter (·.connected)
  if h : connectedInstances = [] then
    .error "No connected instances available"
  else
    let inst := connectedInstances.get
      ⟨lb.cursor % connectedInstances.length,
        Nat.mod_lt _ (List.length_pos.mpr h)⟩
    .ok (inst, { lb with cursor := lb.cursor + 1 })

/-- Cumulative-weight walk used to embed `random.choices(connected_instances,
weights=weights, k=1)[0]`: the draw from the random source is supplied as the
oracle `r`, reduced modulo the total weight by the caller; walking the
cumulative weights with it is the derandomised form of the weighted draw. -/
def pickByWeight : List LBInstance → Nat → Option LBInstance
  | [], _ => none
  | i :: rest, r => if r < i.weight then some i else pickByWeight rest (r - i.weight)

/-- `LoadBalancer._select_instance_random`: filter to connected instances,
fail if none, then draw one at random weighted by `weight` (a total weight of
zero makes `random.choices` raise).  The balancer state is left unchanged. -/
def selectRandom (lb : LB) (r : Nat) : Except String (LBInstance × LB) :=
  let connectedInstances := lb.instances.filter (·.connected)
  if connectedInstances = [] then
    .error "No connected instances available"
  else
    let total := (connectedInstances.map (·.weight)).sum
    if total = 0 then .error "Total of weights must be greater than zero"
    else
      match pickByWeight connectedInstances (r % total) with
      | some i => .ok (i, lb)
      | none => .error "empty population"

/-- `min(connected_instances, key=...)`: Python's `min` keeps the first
element and replaces it only on a strictly smaller key, so ties go to the
earliest element. -/
def argminFirst (f : LBInstance → ℚ) : List LBInstance → Option LBInstance
  | [] => none
  | i :: rest => some (rest.foldl (fun best j => if f j < f best then j else best) i)

/-- `LoadBalancer._select_instance_least_busy`: filter to connected
instances, fail if none, then take the first instance minimising
`active_generations / weight` (a zero weight makes the key function raise
`ZeroDivisionError`).  The balancer state is left unchanged. -/
def selectLeastBusy (lb : LB) : Except String (LBInstance × LB) :=
  let connectedInstances := lb.instances.filter (·.connected)
  if connectedInstances = [] then
    .error "No connected instances available"
  else if connectedInstances.any (·.weight = 0) then
    .error "division by zero"
  else
    match argminFirst (fun i => (i.activeGenerations : ℚ) / (i.weight : ℚ))
        connectedInstances with
    | some i => .ok (i, lb)
    | none => .error "empty population"

/-- The `strategies[self.strategy]()` dispatch of
`LoadBalancer._select_instance`. -/
def selectStrategy (strat : Strategy) (r : Nat) (lb : LB) :
    Except String (LBInstance × LB) :=
  match strat with
  | .roundRobin => selectRoundRobin lb
  | .random => selectRandom lb r
  | .leastBusy => selectLeastBusy lb

/-- The reconnect pass of `LoadBalancer._select_instance`: for every instance
that is not connected and has no active prompts, emit the `reconnect` hook
(pure in this embedding: no hooks are registered) and call
`instance.initialize()`.  The oracle `orc` says whether `initialize` succeeds
for a given instance id; on success the instance becomes connected, on
failure `initialize` raises, which aborts the whole pass and leaves the
remaining instances untouched (the failing instance stays disconnected).
Returns the updated instance list and the raised error, if any. -/
def reconnectAll (orc : Nat → Bool) : List LBInstance → List LBInstance × Option String
  | [] => ([], none)
  | i :: rest =>
      if ¬ i.connected ∧ i.activePrompts = [] then
        if orc i.id then
          let (rest', e) := reconnectAll orc rest
          ({ i with connected := true } :: rest', e)
        else
          (i :: rest, some "Failed to connect to ComfyUI instance")
      else
        let (rest', e) := reconnectAll orc rest
        (i :: rest', e)

/-- `LoadBalancer._select_instance`: compute `available` as the connected,
non-timed-out instances; if empty, run the reconnect pass and recompute
`available` as all now-connected instances; if still empty fail.  Otherwise
overwrite `self.instances` with `available` and dispatch to the configured
strategy.  `now` is the current time, `orc` the reconnection oracle, `r` the
random-draw oracle. -/
def selectInstance (strat : Strategy) (lb : LB) (now : Int) (orc : Nat → Bool)
    (r : Nat) : LB × Except String LBInstance :=
  let available := lb.instances.filter (fun i => i.connected && !(i.isTimedOut now))
  if available = [] then
    let (insts', err) := reconnectAll orc lb.instances
    match err with
    | some e => ({ lb with instances := insts' }, .error e)
    | none =>
        let available2 := insts'.filter (·.connected)
        if available2 = [] then
          ({ lb with instances := insts' }, .error "No available instances")
        else
          let lb' := { lb with instances := available2 }
          match selectStrategy strat r lb' with
          | .ok (i, lb'') => (lb'', .ok i)
          | .error e => (lb', .error e)
  else
    let lb' := { lb with instances := available }
    match selectStrategy strat r lb' with
    | .ok (i, lb'') => (lb'', .ok i)
    | .error e => (lb', .error e)

/-- Call input for one `_select_instance` call: the current time, the
reconnection oracle and the random-draw oracle of that call. -/
structure CallInput where
  now : Int
  orc : Nat → Bool
  r : Nat

/-- A sequence of `_select_instance` calls against the same balancer,
collecting the id of the instance each successful call returned. -/
def runCalls (strat : Strategy) (lb : LB) : List CallInput → LB × List (Option Nat)
  | [] => (lb, [])
  | c :: rest =>
      let (lb1, res) := selectInstance strat lb c.now c.orc c.r
      let sel := match res with
        | .ok i => some i.id
        | .error _ => none
      let (lbF, sels) := runCalls strat lb1 rest
      (lbF, sel :: sels)

/-! Theorems for the load balancer. -/

/-- A fresh two-instance pool, both connected. -/
def rrInst (n : Nat) : LBInstance :=
  { id := n, connected := true, lastUsed := 0, timeout := 900,
    activePrompts := [], weight := 1, activeGenerations := 0 }

def rrPool : LB := { instances := [rrInst 0, rrInst 1], cursor := 0 }

/-- A connected instance that has timed out (`timeout` 10, last used at 0,
queried at time 100). -/
def tInstA : LBInstance :=
  { id := 0, connected := true, lastUsed := 0, timeout := 10,
    activePrompts := [], weight := 1, activeGenerations := 0 }

/-- A disconnected instance with no active prompts, eligible for
reconnection. -/
def tInstB : LBInstance :=
  { id := 1, connected := false, lastUsed := 0, timeout := 10,
    activePrompts := [], weight := 1, activeGenerations := 0 }

def tPool : LB := { instances := [tInstA, tInstB], cursor := 0 }

/-! ## ComfyUIClient (`src/comfy/client.py`) -/

/-- The slice of `ComfyUIInstance` state the client reads and writes:
generation counters, the `active_prompts` set, the `last_used` timestamp and
the connection flag. -/
structure CInstance where
  clientId : String
  connected : Bool
  activeGenerations : Int
  totalGenerations : Nat
  activePrompts : List String
  lastUsed : Int
deriving Repr, DecidableEq

/-- `ComfyUIClient` state relevant to generation: the `prompt_to_instance`
routing dict (keys shadow earlier entries, as an association list) and the
instance pool (instances referenced by index, standing for Python object
identity). -/
structure Client where
  promptToInstance : List (String × Nat)
  instances : List CInstance
deriving Repr, DecidableEq

/-- Environment of one `session.post` call: either the await raises, or a
response arrives with a status, a body text (read via `response.text()` on
the error path) and the `prompt_id` field of its parsed JSON. -/
inductive PostResult where
  | raised (msg : String)
  | response (status : Nat) (body : String) (promptId : Option String)
deriving Repr, DecidableEq

/-- `ComfyUIClient.generate`, after instance selection has picked the
instance at `idx`: under the instance mutex, increment
`active_generations`, POST the workflow (consuming the head of `posts`, the
environment's successive answers — an empty list stands for the transport
raising), fail on any non-200 status with the status code and body text, on
200 register the parsed `prompt_id` (if present) in the instance's
active-prompt set and the routing map and bump `total_generations`; a
`finally` decrements `active_generations` on every exit path.  Returns the
new client state, the result (the `prompt_id` field of the parsed response),
and the responses left unconsumed. -/
def generate (posts : List PostResult) (c : Client) (idx : Nat) :
    Client × Except String (Option String) × List PostResult :=
  match c.instances[idx]? with
  | none => (c, .error "No connected instances available", posts)
  | some inst =>
      let inst1 := { inst with activeGenerations := inst.activeGenerations + 1 }
      match posts with
      | [] =>
          let instF := { inst1 with activeGenerations := inst1.activeGenerations - 1 }
          ({ c with instances := c.instances.set idx instF },
           .error "connection closed", [])
      | .raised msg :: rest =>
          let instF := { inst1 with activeGenerations := inst1.activeGenerations - 1 }
          ({ c with instances := c.instances.set idx instF }, .error msg, rest)
      | .response status body pid :: rest =>
          if status ≠ 200 then
            let instF := { inst1 with activeGenerations := inst1.activeGenerations - 1 }
            ({ c with instances := c.instances.set idx instF },
             .error ("Generation request failed with status " ++ toString status
                ++ ": " ++ body),
             rest)
          else
            let inst2 := match pid with
              | some p => { inst1 with activePrompts := inst1.activePrompts.insert p }
              | none => inst1
            let pmap2 := match pid with
              | some p => (p, idx) :: c.promptToInstance
              | none => c.promptToInstance
            let instF := { inst2 with
                            totalGenerations := inst2.totalGenerations + 1,
                            activeGenerations := inst2.activeGenerations - 1 }
            ({ promptToInstance := pmap2, instances := c.instances.set idx instF },
             .ok pid, rest)

/-- A sequence of `generate` calls (each with its own response environment
and selected instance index); results are delivered to the callers, only the
client state is threaded through. -/
def runGenerates : List (List PostResult × Nat) → Client → Client
  | [], c => c
  | (posts, idx) :: rest, c => runGenerates rest (generate posts c idx).1

/-- Environment of one `session.post` call of `upload_image`: either the
await raises, or a response arrives with a status, a body text and a parsed
JSON payload. -/
inductive UploadResult where
  | raised (msg : String)
  | response (status : Nat) (body : String) (json : String)
deriving Repr, DecidableEq

/-- `ComfyUIClient.upload_image`, after instance selection: under the
instance mutex, multipart-POST the bytes, fail on any non-200 status with
the status code and body text, on 200 return the parsed response (and
nothing else); a `finally` calls `mark_used()` — setting `last_used` to
`now` — on every exit path. -/
def uploadImage (env : UploadResult) (inst : CInstance) (now : Int) :
    CInstance × Except String String :=
  let markUsed := fun (i : CInstance) => { i with lastUsed := now }
  match env with
  | .raised msg => (markUsed inst, .error msg)
  | .response status body json =>
      if status ≠ 200 then
        (markUsed inst,
         .error ("Image upload failed with status " ++ toString status ++ ": " ++ body))
      else
        (markUsed inst, .ok json)

/-- A connected instance with quiescent counters. -/
def gInst : CInstance :=
  { clientId := "cid", connected := true, activeGenerations := 0,
    totalGenerations := 0, activePrompts := [], lastUsed := 0 }

def gClient : Client := { promptToInstance := [], instances := [gInst] }

def post502 : PostResult := .response 502 "Bad Gateway" none

def post200 : PostResult := .response 200 "" (some "test_prompt")

/-! ## `ComfyUIClient.listen_for_updates` (`src/comfy/client.py`) -/

/-- One message received from the instance's websocket, as the listen loop
sees it after `json.loads`: the `type` tag, the `prompt_id` field of its
`data`, and the per-type payload.  `malformed` stands for a frame that fails
to parse as JSON; `otherType` for a JSON message whose `type` is none of the
handled ones. -/
inductive WSMsg where
  | progress (promptId : Option String) (node : Option String) (value : Nat)
      (maxValue : Nat)
  | executing (promptId : Option String) (node : Option String)
  | executed (promptId : Option String) (images : List (Option String × Nat))
  | errorEvt (promptId : Option String) (errText : String)
  | otherType (promptId : Option String)
  | malformed
deriving Repr, DecidableEq

/-- A callback invocation: the status string and the attached file, if any
(a downloaded file is represented by its filename). -/
abbrev CBEntry := String × Option String

/-- The `node_progress` dict: keys are the `node` field of progress messages
(possibly null); of the stored per-node dict only `last_milestone` is ever
read back, so only it is kept. -/
abbrev NP := List (Option String × Nat)

/-- `node_progress[node] = {... 'last_milestone': m}`: dict assignment. -/
def npSet (node : Option String) (m : Nat) (np : NP) : NP :=
  (node, m) :: np.filter (fun kv => kv.1 ≠ node)

/-- `ComfyUIClient._create_progress_bar`: ten-segment text bar with a
truncated percentage. -/
def createProgressBar (value maxValue : Nat) (length : Nat := 10) : String :=
  let filled := length * value / maxValue
  let bar := String.mk (List.replicate filled '█' ++ List.replicate (length - filled) '░')
  let percentage := 100 * value / maxValue
  "[" ++ bar ++ "] " ++ toString percentage ++ "%"

/-- Python renders a `None` node id as the string `None` inside an f-string. -/
def nodeText : Option String → String
  | some s => s
  | none => "None"

/-- The status text of a milestone progress callback. -/
def progressStatus (node : Option String) (value maxValue : Nat) : String :=
  "🔄 Processing node " ++ nodeText node ++ "...\n" ++ createProgressBar value maxValue

/-- One iteration of the milestone loop of the progress handler: fire the
callback and record the milestone iff the percentage has reached `m` and `m`
is strictly above the node's recorded `last_milestone` (default 0).  The
source compares `progress_percentage = (value / max_value) * 100` against
the milestone; since `max_value > 0` on this path (a zero raises
`ZeroDivisionError` before the loop is reached), `percentage ≥ m` is stated
in the exactly equivalent cross-multiplied form `value * 100 ≥ m *
max_value`. -/
def milestoneStep (node : Option String) (value maxValue : Nat)
    (acc : NP × List CBEntry) (m : Nat) : NP × List CBEntry :=
  if value * 100 ≥ m * maxValue ∧ m > ((acc.1.lookup node).getD 0) then
    (npSet node m acc.1, acc.2 ++ [(progressStatus node value maxValue, none)])
  else acc

/-- The `progress` branch of the listen loop: compute the percentage, reset
the node's tracker if it had reached 100 and the percentage dropped below
100 (`percentage < 100` cross-multiplied as `value * 100 < 100 *
max_value`), then walk the milestones {25, 50, 75, 100} in order. -/
def processProgress (node : Option String) (value maxValue : Nat) (np : NP) :
    NP × List CBEntry :=
  let np1 := if np.lookup node = some 100 ∧ value * 100 < 100 * maxValue
    then npSet node 0 np else np
  [25, 50, 75, 100].foldl (milestoneStep node value maxValue) (np1, [])

/-- The `executed` branch: walk the `images` list of the node output; each
entry with a `filename` key is downloaded from the owning instance (the
supplied status is the download response's); a 200 updates the cached
current image and fires a callback, anything else is skipped. -/
def processExecuted (images : List (Option String × Nat)) (cur : Option String) :
    Option String × List CBEntry :=
  images.foldl
    (fun (acc : Option String × List CBEntry) img =>
      match img.1 with
      | none => acc
      | some f =>
          if img.2 = 200 then (some f, acc.2 ++ [("🖼 New image generated!", some f)])
          else acc)
    (cur, [])

/-- Removal of `prompt_id` from both tracking structures, as performed (three
times, with identical code) by the terminal-`executing` branch, the `error`
branch and the `finally` block: discard it from the owning instance's
`active_prompts` set if present, and delete its key from the
`prompt_to_instance` dict if present. -/
def removeTracking (pid : String) (idx : Nat) (c : Client) : Client :=
  let c1 := match c.instances[idx]? with
    | some inst =>
        if pid ∈ inst.activePrompts then
          let inst' := { inst with activePrompts := inst.activePrompts.filter (· ≠ pid) }
          { c with instances := c.instances.set idx inst' }
        else c
    | none => c
  if (c1.promptToInstance.lookup pid).isSome then
    { c1 with promptToInstance := c1.promptToInstance.filter (fun kv => kv.1 ≠ pid) }
  else c1

/-- The message loop of `listen_for_updates`, reading the owning instance's
stream until a terminal condition.  Messages whose `prompt_id` differs from
the listened one are skipped, as are unparseable frames and unknown types; a
`progress` message with `max == 0` raises `ZeroDivisionError`, which the
catch-all handler reports to the callback before re-raising; the terminal
`executing` message (null node) and the `error` message both remove the
prompt from the tracking structures and end the loop; exhausting `msgs`
stands for the websocket closing, which notifies the callback and raises.
Returns the callback transcript, the client state and the loop's outcome. -/
def listenLoop (pid : String) (idx : Nat) :
    List WSMsg → Client → Option String → NP →
      List CBEntry × Client × Except String Unit
  | [], c, _, _ =>
      ([("❌ Connection closed unexpectedly", none)], c, .error "ConnectionClosed")
  | msg :: rest, c, curImg, np =>
      match msg with
      | .malformed => listenLoop pid idx rest c curImg np
      | .otherType _ => listenLoop pid idx rest c curImg np
      | .progress mpid node value maxValue =>
          if mpid ≠ some pid then listenLoop pid idx rest c curImg np
          else if maxValue = 0 then
            ([("❌ Error: division by zero", none)], c, .error "division by zero")
          else
            let (np', cbs) := processProgress node value maxValue np
            let (tr, c', res) := listenLoop pid idx rest c curImg np'
            (cbs ++ tr, c', res)
      | .executing mpid nodeOpt =>
          if mpid ≠ some pid then listenLoop pid idx rest c curImg np
          else
            match nodeOpt with
            | some node =>
                let np' := np.filter (fun kv => kv.1 ≠ some node)
                let (tr, c', res) := listenLoop pid idx rest c curImg np'
                (("🔄 Processing node " ++ node ++ "...", none) :: tr, c', res)
            | none =>
                ([("✅ Generation complete!", curImg)], removeTracking pid idx c, .ok ())
      | .executed mpid images =>
          if mpid ≠ some pid then listenLoop pid idx rest c curImg np
          else
            let (cur', cbs) := processExecuted images curImg
            let (tr, c', res) := listenLoop pid idx rest c cur' np
            (cbs ++ tr, c', res)
      | .errorEvt mpid errText =>
          if mpid ≠ some pid then listenLoop pid idx rest c curImg np
          else
            ([("❌ Error: ComfyUI Error, check logs for more information.", none),
              ("❌ Error: ComfyUI Error: " ++ errText, none)],
             removeTracking pid idx c,
             .error ("ComfyUI Error: " ++ errText))

/-- `ComfyUIClient.listen_for_updates`: look the prompt up in the routing
map and fail unless it maps to a connected instance; otherwise run the
message loop, and in a `finally` remove the prompt from both tracking
structures whatever the exit path was. -/
def listenForUpdates (pid : String) (msgs : List WSMsg) (c : Client) :
    List CBEntry × Client × Except String Unit :=
  match c.promptToInstance.lookup pid with
  | none => ([], c, .error ("No connected instance found for prompt " ++ pid))
  | some idx =>
      match c.instances[idx]? with
      | none => ([], c, .error ("No connected instance found for prompt " ++ pid))
      | some inst =>
          if inst.connected then
            let (tr, c', res) := listenLoop pid idx msgs c none []
            (tr, removeTracking pid idx c', res)
          else ([], c, .error ("No connected instance found for prompt " ++ pid))

/-- A connected instance listening on prompt `p1`, and its client. -/
def wInst : CInstance := { gInst with activePrompts := ["p1"] }

def wClient : Client := { promptToInstance := [("p1", 0)], instances := [wInst] }

/-- A client listening on prompt `p4` whose stream delivers progress
percentages 25, 26, 50, 51, 100 for one node and then completes. -/
def c4Client : Client :=
  { promptToInstance := [("p4", 0)],
    instances := [{ gInst with activePrompts := ["p4"] }] }

def c4Msgs : List WSMsg :=
  [.progress (some "p4") (some "n") 25 100,
   .progress (some "p4") (some "n") 26 100,
   .progress (some "p4") (some "n") 50 100,
   .progress (some "p4") (some "n") 51 100,
   .progress (some "p4") (some "n") 100 100,
   .executing (some "p4") none]

/-! ## Node-update verbosity (spec §4.3) -/

/-- The two stream events the verbosity property ranges over: the start of a
graph node (`executing` with a non-null node) and the terminal completion
event (`executing` with a null node). -/
inductive VEvent where
  | nodeStart (node : String)
  | completion
deriving Repr, DecidableEq

/-- Modelled from the spec: the client-wide node-update verbosity toggle
(`show_node_updates`) is absent from `src/comfy/client.py` — it appears only
in the bot caller (`src/bot/imagesmith.py`) and the client tests
(`tests/comfy/test_client.py`).  Following spec §4.3: when the toggle is
disabled, only a single "generation in progress" notification is sent on the
very first node-start event of a job (tracked by the `notified` flag) and
the final completion message is still always sent, per-node chatter being
suppressed; when enabled, every node-start produces its per-node
notification.  Returns the callback transcript. -/
def listenVerbosity (showNodeUpdates : Bool) : List VEvent → Bool → List String
  | [], _ => []
  | .nodeStart node :: rest, notified =>
      if showNodeUpdates then
        ("🔄 Processing node " ++ node ++ "...") ::
          listenVerbosity showNodeUpdates rest notified
      else if !notified then
        "🔄 Generation in progress..." :: listenVerbosity showNodeUpdates rest true
      else
        listenVerbosity showNodeUpdates rest true
  | .completion :: _, _ => ["✅ Generation complete!"]

/-! ## Theorems -/

theorem drainLoop_spec (jobs : List Job) (p : Bool) (ct : Option Job) :
    (drainLoop ⟨jobs, p, ct⟩).1.queue = [] ∧
    (drainLoop ⟨jobs, p, ct⟩).1.processing = p ∧
    (drainLoop ⟨jobs, p, ct⟩).2 = jobs := by
  induction jobs generalizing ct with
  | nil => simp [drainLoop]
  | cons j rest ih =>
      have h := ih none
      rw [drainLoop.eq_def]
      dsimp only
      exact ⟨h.1, h.2.1, by rw [h.2.2]⟩

/-- C9: every queued job closure processed by `GenerationQueue`'s drain loop
has its exception (if any) caught inside the loop: the outcome list returned
by `process_queue` contains every queued closure in order — errors included,
so a raising closure neither propagates out of `process_queue` (whose result
carries no exception) nor prevents the remaining closures from being
executed — and the loop exits with the `processing` flag false exactly when
the queue has been emptied. -/
theorem processQueue_drains_all_jobs (jobs : List Job) (ct : Option Job) :
    (processQueue ⟨jobs, false, ct⟩).2 = jobs ∧
    (processQueue ⟨jobs, false, ct⟩).1.queue = [] ∧
    (processQueue ⟨jobs, false, ct⟩).1.processing = false := by
  have h := drainLoop_spec jobs true ct
  simp [processQueue, h.1, h.2.1, h.2.2]

/-- C8: under ROUND_ROBIN, a selection over a non-empty connected list
returns the connected-instance list indexed by the persistent cursor modulo
its current length, advances the cursor by exactly one, and leaves the
instance list itself untouched — in particular nothing about a change of
pool membership ever resets the cursor. -/
theorem selectRoundRobin_cursor_spec (lb : LB)
    (h : lb.instances.filter (·.connected) ≠ []) :
    ∃ inst lb',
      selectRoundRobin lb = .ok (inst, lb') ∧
      (lb.instances.filter (·.connected)).get?
        (lb.cursor % (lb.instances.filter (·.connected)).length) = some inst ∧
      lb' = { instances := lb.instances, cursor := lb.cursor + 1 } := by
  have hlen : lb.cursor % (lb.instances.filter (·.connected)).length <
      (lb.instances.filter (·.connected)).length :=
    Nat.mod_lt _ (List.length_pos.mpr h)
  refine ⟨(lb.instances.filter (·.connected)).get ⟨_, hlen⟩,
    { instances := lb.instances, cursor := lb.cursor + 1 }, ?_,
    List.get?_eq_get hlen, rfl⟩
  simp only [selectRoundRobin]
  rw [dif_neg h]

/-- Witness for C8: applying the round-robin theorem to a fresh 2-instance
pool; three consecutive selections return instance 0, instance 1, then
instance 0 again. -/
theorem selectRoundRobin_cursor_spec_witness :
    (rrPool.instances.filter (·.connected) ≠ [] ∧
      ∃ inst lb',
        selectRoundRobin rrPool = .ok (inst, lb') ∧
        (rrPool.instances.filter (·.connected)).get?
          (rrPool.cursor % (rrPool.instances.filter (·.connected)).length) =
            some inst ∧
        lb' = { instances := rrPool.instances, cursor := rrPool.cursor + 1 }) ∧
    selectRoundRobin rrPool = .ok (rrInst 0, ⟨[rrInst 0, rrInst 1], 1⟩) ∧
    selectRoundRobin ⟨[rrInst 0, rrInst 1], 1⟩ =
      .ok (rrInst 1, ⟨[rrInst 0, rrInst 1], 2⟩) ∧
    selectRoundRobin ⟨[rrInst 0, rrInst 1], 2⟩ =
      .ok (rrInst 0, ⟨[rrInst 0, rrInst 1], 3⟩) :=
  ⟨⟨by decide, selectRoundRobin_cursor_spec rrPool (by decide)⟩, rfl, rfl, rfl⟩

theorem pickByWeight_mem {l : List LBInstance} {r : Nat} {i : LBInstance}
    (h : pickByWeight l r = some i) : i ∈ l := by
  induction l generalizing r with
  | nil => simp [pickByWeight] at h
  | cons a rest ih =>
      simp only [pickByWeight] at h
      split at h
      · cases h; exact List.mem_cons_self _ _
      · exact List.mem_cons_of_mem _ (ih h)

theorem foldl_min_mem (f : LBInstance → ℚ) (init : LBInstance)
    (l : List LBInstance) :
    l.foldl (fun best j => if f j < f best then j else best) init ∈ init :: l := by
  induction l generalizing init with
  | nil => simp
  | cons a rest ih =>
      simp only [List.foldl_cons]
      rcases List.mem_cons.mp (ih (if f a < f init then a else init)) with h | h
      · rw [List.mem_cons, h]
        split
        · exact Or.inr (List.mem_cons_self _ _)
        · exact Or.inl rfl
      · exact List.mem_cons_of_mem _ (List.mem_cons_of_mem _ h)

theorem argminFirst_mem {f : LBInstance → ℚ} {l : List LBInstance}
    {i : LBInstance} (h : argminFirst f l = some i) : i ∈ l := by
  cases l with
  | nil => simp [argminFirst] at h
  | cons a rest =>
      simp only [argminFirst, Option.some.injEq] at h
      rw [← h]
      exact foldl_min_mem f a rest

/-- Every strategy returns a member of the current (connected) pool and
leaves the instance list unchanged (only the round-robin cursor moves). -/
theorem selectStrategy_ok {strat : Strategy} {r : Nat} {lb : LB}
    {i : LBInstance} {lb' : LB}
    (h : selectStrategy strat r lb = .ok (i, lb')) :
    i ∈ lb.instances ∧ lb'.instances = lb.instances := by
  cases strat with
  | roundRobin =>
      simp only [selectStrategy, selectRoundRobin] at h
      split at h
      · cases h
      · cases h
        exact ⟨List.mem_of_mem_filter (List.get_mem _ _ _), rfl⟩
  | random =>
      simp only [selectStrategy, selectRandom] at h
      split at h
      · cases h
      · split at h
        · cases h
        · split at h
          · cases h
            exact ⟨List.mem_of_mem_filter (pickByWeight_mem (by assumption)), rfl⟩
          · cases h
  | leastBusy =>
      simp only [selectStrategy, selectLeastBusy] at h
      split at h
      · cases h
      · split at h
        · cases h
        · split at h
          · cases h
            exact ⟨List.mem_of_mem_filter (argminFirst_mem (by assumption)), rfl⟩
          · cases h

/-- The reconnect pass never changes which instances are in the list (it
only flips `connected` flags). -/
theorem reconnectAll_ids (orc : Nat → Bool) (l : List LBInstance) :
    ((reconnectAll orc l).1).map (·.id) = l.map (·.id) := by
  induction l with
  | nil => simp [reconnectAll]
  | cons a rest ih =>
      simp only [reconnectAll]
      split
      · split
        · simpa using ih
        · simp
      · simpa using ih

/-- On the success path, `_select_instance` overwrites the pool with the
`available` view of the branch it took, and returns a member of that view. -/
theorem selectInstance_ok_spec {strat : Strategy} {lb : LB} {now : Int}
    {orc : Nat → Bool} {r : Nat} {lbOut : LB} {inst : LBInstance}
    (h : selectInstance strat lb now orc r = (lbOut, .ok inst)) :
    inst ∈ lbOut.instances ∧
    (lb.instances.filter (fun i => i.connected && !(i.isTimedOut now)) ≠ [] →
       lbOut.instances =
         lb.instances.filter (fun i => i.connected && !(i.isTimedOut now))) ∧
    (lb.instances.filter (fun i => i.connected && !(i.isTimedOut now)) = [] →
       lbOut.instances = ((reconnectAll orc lb.instances).1).filter (·.connected)) := by
  simp only [selectInstance] at h
  split at h
  case isTrue hav =>
    split at h
    case h_1 => cases h
    case h_2 =>
      split at h
      case isTrue => cases h
      case isFalse hav2 =>
        split at h
        case h_1 i lb'' hsel =>
          simp only [Prod.mk.injEq, Except.ok.injEq] at h
          obtain ⟨rfl, rfl⟩ := h
          obtain ⟨hmem, hinsts⟩ := selectStrategy_ok hsel
          refine ⟨by rw [hinsts]; exact hmem, fun hne => absurd hav hne, fun _ => ?_⟩
          simpa using hinsts
        case h_2 => cases h
  case isFalse hav =>
    split at h
    case h_1 i lb'' hsel =>
      simp only [Prod.mk.injEq, Except.ok.injEq] at h
      obtain ⟨rfl, rfl⟩ := h
      obtain ⟨hmem, hinsts⟩ := selectStrategy_ok hsel
      refine ⟨by rw [hinsts]; exact hmem, fun _ => ?_, fun heq => absurd heq hav⟩
      simpa using hinsts
    case h_2 => cases h

/-- Whatever the outcome, a `_select_instance` call only ever shrinks (or
relabels the connection flags of) the stored pool: no call introduces an
instance id that was not already present. -/
theorem selectInstance_ids_subset (strat : Strategy) (lb : LB) (now : Int)
    (orc : Nat → Bool) (r : Nat) :
    ((selectInstance strat lb now orc r).1).instances.map (·.id) ⊆
      lb.instances.map (·.id) := by
  have hrec := reconnectAll_ids orc lb.instances
  have hfilt : ∀ (p : LBInstance → Bool) (l : List LBInstance),
      (l.filter p).map (·.id) ⊆ l.map (·.id) :=
    fun p l => List.map_subset _ (List.filter_subset' _)
  simp only [selectInstance]
  split
  case isTrue hav =>
    split
    case h_1 => simpa [hrec] using fun x hx => hx
    case h_2 =>
      split
      case isTrue => simpa [hrec] using fun x hx => hx
      case isFalse =>
        split
        case h_1 i lb'' hsel =>
          have hinsts := (selectStrategy_ok hsel).2
          simp only [hinsts]
          intro x hx
          rw [← hrec]
          exact hfilt _ _ hx
        case h_2 =>
          intro x hx
          rw [← hrec]
          exact hfilt _ _ hx
  case isFalse hav =>
    split
    case h_1 i lb'' hsel =>
      have hinsts := (selectStrategy_ok hsel).2
      simp only [hinsts]
      exact hfilt _ _
    case h_2 => exact hfilt _ _

/-- Any instance a successful `_select_instance` call returns already had
its id in the pre-call pool. -/
theorem selectInstance_sel_id_mem {strat : Strategy} {lb : LB} {now : Int}
    {orc : Nat → Bool} {r : Nat} {lbOut : LB} {inst : LBInstance}
    (h : selectInstance strat lb now orc r = (lbOut, .ok inst)) :
    inst.id ∈ lb.instances.map (·.id) := by
  have hmem := (selectInstance_ok_spec h).1
  have hsub := selectInstance_ids_subset strat lb now orc r
  rw [h] at hsub
  exact hsub (List.mem_map_of_mem _ hmem)

/-- An id absent from the pool never reappears and is never selected, over
any sequence of `_select_instance` calls. -/
theorem runCalls_no_resurrection {strat : Strategy} {x : Nat} :
    ∀ (inputs : List CallInput) (lb : LB), x ∉ lb.instances.map (·.id) →
      x ∉ ((runCalls strat lb inputs).1).instances.map (·.id) ∧
      some x ∉ (runCalls strat lb inputs).2 := by
  intro inputs
  induction inputs with
  | nil => intro lb hx; simpa [runCalls] using hx
  | cons c rest ih =>
      intro lb hx
      simp only [runCalls]
      rcases hcall : selectInstance strat lb c.now c.orc c.r with ⟨lb1, res⟩
      have hx1 : x ∉ lb1.instances.map (·.id) := by
        intro hmem
        apply hx
        have hsub := selectInstance_ids_subset strat lb c.now c.orc c.r
        rw [hcall] at hsub
        exact hsub hmem
      obtain ⟨hfin, hsels⟩ := ih lb1 hx1
      refine ⟨by simpa [hcall] using hfin, ?_⟩
      simp only [hcall, List.mem_cons]
      rintro (hhd | htl)
      · cases res with
        | ok i =>
            simp only [Option.some.injEq] at hhd
            exact hx (hhd ▸ selectInstance_sel_id_mem hcall)
        | error e => simp at hhd
      · exact hsels htl

/-- C10 counterexample: with instance A connected but timed out and instance
B disconnected (and reconnectable), `_select_instance` at time 100 takes the
reconnect branch, keeps the timed-out instance A in the stored pool — and in
fact returns A itself — refuting that every instance disconnected or timed
out at the moment of the call is removed from the pool state. -/
theorem selectInstance_timedOut_retained :
    tInstA.isTimedOut 100 = true ∧
    (selectInstance .roundRobin tPool 100 (fun _ => true) 0).2 = .ok tInstA ∧
    tInstA ∈ ((selectInstance .roundRobin tPool 100 (fun _ => true) 0).1).instances := by
  refine ⟨by decide, rfl, ?_⟩
  show tInstA ∈ [tInstA, { tInstB with connected := true }]
  exact List.mem_cons_self _ _

/-- C10 (amended): a successful `_select_instance` call overwrites the
stored pool with the `available` subset of the branch it took — when some
instance was connected and not timed out at entry, every disconnected or
timed-out instance is dropped; on the reconnect branch only the instances
still disconnected after the reconnect pass are dropped, and a
timed-out-but-connected instance is retained (and remains selectable).  The
returned instance is a member of the stored pool, and an instance id absent
from the pool is never selected nor brought back by any later sequence of
selection calls. -/
theorem selectInstance_overwrites_pool (strat : Strategy) (lb : LB) (now : Int)
    (orc : Nat → Bool) (r : Nat) (lbOut : LB) (inst : LBInstance)
    (h : selectInstance strat lb now orc r = (lbOut, .ok inst)) :
    (inst ∈ lbOut.instances ∧
      (lb.instances.filter (fun i => i.connected && !(i.isTimedOut now)) ≠ [] →
        lbOut.instances =
          lb.instances.filter (fun i => i.connected && !(i.isTimedOut now))) ∧
      (lb.instances.filter (fun i => i.connected && !(i.isTimedOut now)) = [] →
        lbOut.instances =
          ((reconnectAll orc lb.instances).1).filter (·.connected))) ∧
    (∀ x, x ∉ lb.instances.map (·.id) →
      ∀ inputs : List CallInput,
        x ∉ ((runCalls strat lb inputs).1).instances.map (·.id) ∧
        some x ∉ (runCalls strat lb inputs).2) :=
  ⟨selectInstance_ok_spec h,
    fun _ hx inputs => runCalls_no_resurrection inputs lb hx⟩

/-- Witness for the amended C10 theorem: a concrete successful call on a
fresh two-instance pool, and a concrete foreign id that never appears. -/
theorem selectInstance_overwrites_pool_witness :
    selectInstance .roundRobin rrPool 0 (fun _ => true) 0 =
      (⟨[rrInst 0, rrInst 1], 1⟩, .ok (rrInst 0)) ∧
    rrInst 0 ∈ (⟨[rrInst 0, rrInst 1], 1⟩ : LB).instances ∧
    (5 ∉ rrPool.instances.map (·.id) ∧
      5 ∉ ((runCalls .roundRobin rrPool [⟨0, fun _ => true, 0⟩]).1).instances.map (·.id) ∧
      some 5 ∉ (runCalls .roundRobin rrPool [⟨0, fun _ => true, 0⟩]).2) := by
  have h := selectInstance_overwrites_pool .roundRobin rrPool 0 (fun _ => true) 0
    ⟨[rrInst 0, rrInst 1], 1⟩ (rrInst 0) rfl
  have h5 := h.2 5 (by decide) [⟨0, fun _ => true, 0⟩]
  exact ⟨rfl, h.1.1, by decide, h5.1, h5.2⟩

/-- C1: `generate` performs no retry whatsoever — a 502 response fails the
call immediately after a single POST (the queued 200 success response is
never consumed), surfacing the status code and body text, and the client
state is left as before.  The layer above (its tests and the spec) expects
transient statuses to be retried with backoff; the shipped `generate` has no
retry loop at all. -/
theorem generate_no_retry :
    (generate [post502, post200] gClient 0).2.1 =
      .error "Generation request failed with status 502: Bad Gateway" ∧
    (generate [post502, post200] gClient 0).2.2 = [post200] ∧
    (generate [post502, post200] gClient 0).1 = gClient := by
  refine ⟨rfl, rfl, ?_⟩
  simp only [generate, gClient, gInst, post502]
  norm_num

/-- C5: every `generate` call leaves every instance's `active_generations`
exactly as it found it (the increment under the mutex is matched by exactly
one decrement on every exit path — success, non-200 failure, or transport
exception), so over any sequence of calls the counters are preserved, and a
pool that starts with all counters at 0 ends with all counters at 0 even
when every call raises. -/
theorem generate_activeGenerations_balanced :
    (∀ (posts : List PostResult) (c : Client) (idx j : Nat),
       ((((generate posts c idx).1).instances[j]?).map (fun i : CInstance => i.activeGenerations)) =
         ((c.instances[j]?).map (fun i : CInstance => i.activeGenerations))) ∧
    (∀ (calls : List (List PostResult × Nat)) (c : Client) (j : Nat),
       (((runGenerates calls c).instances[j]?).map (fun i : CInstance => i.activeGenerations)) =
         ((c.instances[j]?).map (fun i : CInstance => i.activeGenerations))) ∧
    (∀ calls c, (∀ i ∈ c.instances, i.activeGenerations = 0) →
       ∀ i ∈ (runGenerates calls c).instances, i.activeGenerations = 0) := by
  have h1 : ∀ (posts : List PostResult) (c : Client) (idx j : Nat),
      ((((generate posts c idx).1).instances[j]?).map (fun i : CInstance => i.activeGenerations)) =
        ((c.instances[j]?).map (fun i : CInstance => i.activeGenerations)) := by
    intro posts c idx j
    rcases hget : c.instances[idx]? with _ | inst
    · simp [generate, hget]
    · have hset : ∀ (v : CInstance), v.activeGenerations = inst.activeGenerations →
          (((c.instances.set idx v)[j]?).map (fun i : CInstance => i.activeGenerations)) =
            ((c.instances[j]?).map (fun i : CInstance => i.activeGenerations)) := by
        intro v hv
        rcases eq_or_ne idx j with rfl | hne
        · rw [List.getElem?_set_self', hget]
          simp [hv]
        · rw [List.getElem?_set_ne hne]
      have hbal : inst.activeGenerations + 1 - 1 = inst.activeGenerations := by ring
      rcases posts with _ | ⟨msg | ⟨status, body, pid⟩, rest⟩
      · simp only [generate, hget]
        exact hset _ hbal
      · simp only [generate, hget]
        exact hset _ hbal
      · simp only [generate, hget]
        split
        · exact hset _ hbal
        · rcases pid with _ | p
          · exact hset _ hbal
          · exact hset _ hbal
  have h2 : ∀ (calls : List (List PostResult × Nat)) (c : Client) (j : Nat),
      (((runGenerates calls c).instances[j]?).map (fun i : CInstance => i.activeGenerations)) =
        ((c.instances[j]?).map (fun i : CInstance => i.activeGenerations)) := by
    intro calls
    induction calls with
    | nil => intro c j; rfl
    | cons call rest ih =>
        intro c j
        rcases call with ⟨posts, idx⟩
        rw [runGenerates, ih, h1]
  refine ⟨h1, h2, ?_⟩
  intro calls c hz i hi
  obtain ⟨j, hjlt, hj⟩ := List.mem_iff_getElem.mp hi
  have hthis := h2 calls c j
  rw [List.getElem?_eq_getElem hjlt, hj] at hthis
  rcases hget : c.instances[j]? with _ | i0
  · rw [hget] at hthis; simp at hthis
  · rw [hget] at hthis
    simp only [Option.map_some'] at hthis
    obtain h0 := hz i0 (List.getElem?_mem hget)
    simpa [h0] using hthis

/-- Witness for C5: a pool starting at 0 active generations ends at 0 after
two `generate` calls that both raise (a transport error and a closed
connection). -/
theorem generate_activeGenerations_balanced_witness :
    (∀ i ∈ gClient.instances, i.activeGenerations = 0) ∧
    (∀ i ∈ (runGenerates [([PostResult.raised "Network error"], 0), ([], 0)]
        gClient).instances, i.activeGenerations = 0) :=
  ⟨by decide,
    generate_activeGenerations_balanced.2.2
      [([PostResult.raised "Network error"], 0), ([], 0)] gClient (by decide)⟩

/-- C7: `upload_image` calls `mark_used()` on the selected instance on every
exit path (success, non-200 failure, transport exception), but its success
value is the parsed engine response alone — no instance accompanies it, so a
caller cannot learn which instance served the upload from the return value
(its tests and its caller expect the pair `(response, instance)`). -/
theorem uploadImage_marks_used_returns_bare_response :
    (∀ env inst now, ((uploadImage env inst now).1) = { inst with lastUsed := now }) ∧
    (uploadImage (.response 200 "Success" "upload-json") gInst 5 =
       ({ gInst with lastUsed := 5 }, .ok "upload-json")) ∧
    (uploadImage (.response 400 "Bad request" "bad") gInst 5 =
       ({ gInst with lastUsed := 5 },
        .error "Image upload failed with status 400: Bad request")) ∧
    (uploadImage (.raised "Network error") gInst 5 =
       ({ gInst with lastUsed := 5 }, .error "Network error")) := by
  refine ⟨?_, rfl, rfl, rfl⟩
  intro env inst now
  rcases env with msg | ⟨status, body, json⟩
  · rfl
  · simp only [uploadImage]
    split <;> rfl

theorem lookup_filter_ne (pid : String) (l : List (String × Nat)) :
    (l.filter (fun kv => kv.1 ≠ pid)).lookup pid = none := by
  induction l with
  | nil => rfl
  | cons kv rest ih =>
      rw [List.filter_cons]
      by_cases h : kv.1 = pid
      · rw [if_neg (by simp [h])]
        exact ih
      · rw [if_pos (by simp [h])]
        have hb : (pid == kv.1) = false := beq_eq_false_iff_ne.mpr (Ne.symm h)
        simp only [List.lookup, hb]
        exact ih

/-- After `removeTracking`, the prompt is gone from the routing map and from
the instance's active set — unconditionally. -/
theorem removeTracking_spec (pid : String) (idx : Nat) (c : Client) :
    ((removeTracking pid idx c).promptToInstance.lookup pid = none) ∧
    (∀ inst', (removeTracking pid idx c).instances[idx]? = some inst' →
       pid ∉ inst'.activePrompts) := by
  unfold removeTracking
  rcases hg : c.instances[idx]? with _ | inst <;> simp only [hg]
  · split
    case isTrue hs =>
      exact ⟨lookup_filter_ne pid _,
        fun inst' h' => by rw [hg] at h'; cases h'⟩
    case isFalse hs =>
      exact ⟨Option.not_isSome_iff_eq_none.mp (by exact hs),
        fun inst' h' => by rw [hg] at h'; cases h'⟩
  · have hset : ∀ (v : CInstance) (inst' : CInstance),
        (c.instances.set idx v)[idx]? = some inst' → inst' = v := by
      intro v inst' h'
      rw [List.getElem?_set_self', hg] at h'
      simpa using h'.symm
    split
    case isTrue hmem =>
      split
      case isTrue hs =>
        refine ⟨lookup_filter_ne pid _, ?_⟩
        intro inst' h'
        rw [hset _ _ h']
        simp
      case isFalse hs =>
        refine ⟨Option.not_isSome_iff_eq_none.mp (by exact hs), ?_⟩
        intro inst' h'
        rw [hset _ _ h']
        simp
    case isFalse hmem =>
      split
      case isTrue hs =>
        refine ⟨lookup_filter_ne pid _, ?_⟩
        intro inst' h'
        rw [hg] at h'
        cases h'
        exact hmem
      case isFalse hs =>
        refine ⟨Option.not_isSome_iff_eq_none.mp (by exact hs), ?_⟩
        intro inst' h'
        rw [hg] at h'
        cases h'
        exact hmem

/-- C3: whenever `listen_for_updates` is entered for a prompt mapped to a
connected instance, then however the call exits — terminal `executing`,
`error` event, closed stream, or any other failure — the prompt is absent
from the client's routing map and from the owning instance's active-prompt
set afterwards. -/
theorem listenForUpdates_cleans_tracking (pid : String) (msgs : List WSMsg)
    (c : Client) (idx : Nat) (inst : CInstance)
    (hmap : c.promptToInstance.lookup pid = some idx)
    (hinst : c.instances[idx]? = some inst)
    (hconn : inst.connected = true) :
    ((listenForUpdates pid msgs c).2.1).promptToInstance.lookup pid = none ∧
    (∀ inst', ((listenForUpdates pid msgs c).2.1).instances[idx]? = some inst' →
       pid ∉ inst'.activePrompts) := by
  simp only [listenForUpdates, hmap, hinst, hconn, if_true]
  rcases hL : listenLoop pid idx msgs c none [] with ⟨tr, c', res⟩
  exact removeTracking_spec pid idx c'

/-- Witness for C3: a concrete listening client whose stream delivers an
engine error; the prompt is scrubbed from both structures afterwards. -/
theorem listenForUpdates_cleans_tracking_witness :
    (wClient.promptToInstance.lookup "p1" = some 0 ∧
      wClient.instances[0]? = some wInst ∧ wInst.connected = true) ∧
    ((listenForUpdates "p1" [.errorEvt (some "p1") "boom"] wClient).2.1).promptToInstance.lookup "p1" = none ∧
    (∀ inst',
      ((listenForUpdates "p1" [.errorEvt (some "p1") "boom"] wClient).2.1).instances[0]? = some inst' →
      "p1" ∉ inst'.activePrompts) :=
  ⟨⟨rfl, rfl, rfl⟩,
    listenForUpdates_cleans_tracking "p1" [.errorEvt (some "p1") "boom"] wClient 0 wInst
      rfl rfl rfl⟩

/-- C2: on an `error` event the listen loop first invokes the callback with
the fixed generic message — but the exception it then raises is caught by
the loop's catch-all handler, which invokes the callback a second time with
the exception text, engine-supplied error included.  The callback-visible
transcript therefore depends on the engine error payload: two different
engine texts produce two different transcripts. -/
theorem listen_error_path_leaks_engine_text :
    (listenForUpdates "p1" [.errorEvt (some "p1") "secret-detail"] wClient).1 =
      [("❌ Error: ComfyUI Error, check logs for more information.", none),
       ("❌ Error: ComfyUI Error: secret-detail", none)] ∧
    (listenForUpdates "p1" [.errorEvt (some "p1") "secret-detail"] wClient).1 ≠
      (listenForUpdates "p1" [.errorEvt (some "p1") "other-detail"] wClient).1 := by
  constructor
  · rfl
  · intro hcontra
    have h1 : (listenForUpdates "p1" [.errorEvt (some "p1") "secret-detail"] wClient).1 =
        [("❌ Error: ComfyUI Error, check logs for more information.", none),
         ("❌ Error: ComfyUI Error: secret-detail", none)] := rfl
    have h2 : (listenForUpdates "p1" [.errorEvt (some "p1") "other-detail"] wClient).1 =
        [("❌ Error: ComfyUI Error, check logs for more information.", none),
         ("❌ Error: ComfyUI Error: other-detail", none)] := rfl
    rw [h1, h2] at hcontra
    simp at hcontra

theorem npSet_lookup (node : Option String) (m : Nat) (np : NP) :
    (npSet node m np).lookup node = some m := by
  simp [npSet, List.lookup]

/-- Walking an ascending milestone list fires exactly one callback per
milestone newly crossed relative to the tracker the walk started from. -/
theorem milestoneFold_count (node : Option String) (value maxValue : Nat) :
    ∀ (ms : List Nat) (np : NP) (cbs : List CBEntry), ms.Pairwise (· < ·) →
      ((ms.foldl (milestoneStep node value maxValue) (np, cbs)).2).length =
        cbs.length +
          (ms.filter (fun (m : Nat) =>
            decide (value * 100 ≥ m * maxValue) &&
            decide (((np.lookup node).getD 0) < m))).length := by
  intro ms
  induction ms with
  | nil => intro np cbs _; simp
  | cons m rest ih =>
      intro np cbs hpw
      obtain ⟨hall, hrest⟩ := List.pairwise_cons.mp hpw
      simp only [List.foldl_cons, List.filter_cons]
      by_cases hc : value * 100 ≥ m * maxValue ∧ m > ((np.lookup node).getD 0)
      · rw [milestoneStep, if_pos hc]
        rw [ih _ _ hrest]
        have hfc : rest.filter (fun (m' : Nat) =>
              decide (value * 100 ≥ m' * maxValue) &&
              decide ((((npSet node m np).lookup node).getD 0) < m')) =
            rest.filter (fun (m' : Nat) =>
              decide (value * 100 ≥ m' * maxValue) &&
              decide (((np.lookup node).getD 0) < m')) := by
          apply List.filter_congr
          intro m' hm'
          have h1 : m < m' := hall m' hm'
          have h2 : ((np.lookup node).getD 0) < m' := lt_trans hc.2 h1
          rw [npSet_lookup]
          simp [h1, h2]
        rw [hfc]
        rw [if_pos (by simp [hc.1, hc.2])]
        simp
        omega
      · rw [milestoneStep, if_neg hc]
        rw [ih _ _ hrest]
        rw [if_neg ?_]
        intro hcond
        apply hc
        constructor
        · exact of_decide_eq_true (Bool.and_elim_left hcond)
        · exact of_decide_eq_true (Bool.and_elim_right hcond)

/-- C4: the progress handler fires the callback exactly once per milestone
of {25, 50, 75, 100} newly crossed relative to the node's tracker (as reset
when a node falls back below 100 after reaching it) — never once per
message; in particular the percentage sequence 25, 26, 50, 51, 100 produces
exactly 4 progress callbacks (at 25, at 50, and two at 100 for the jointly
crossed 75 and 100), followed only by the completion callback. -/
theorem progress_milestone_dedup :
    (∀ (node : Option String) (value maxValue : Nat) (np : NP),
       ((processProgress node value maxValue np).2).length =
         (([25, 50, 75, 100] : List Nat).filter (fun (m : Nat) =>
            decide (value * 100 ≥ m * maxValue) &&
            decide ((((if np.lookup node = some 100 ∧ value * 100 < 100 * maxValue
                then npSet node 0 np else np).lookup node).getD 0) < m))).length) ∧
    (listenForUpdates "p4" c4Msgs c4Client).1 =
      [(progressStatus (some "n") 25 100, none),
       (progressStatus (some "n") 50 100, none),
       (progressStatus (some "n") 100 100, none),
       (progressStatus (some "n") 100 100, none),
       ("✅ Generation complete!", none)] := by
  constructor
  · intro node value maxValue np
    simp only [processProgress]
    rw [milestoneFold_count node value maxValue [25, 50, 75, 100] _ [] (by decide)]
    simp
  · rfl

theorem listenVerbosity_disabled_notified (nodes : List String) :
    listenVerbosity false (nodes.map VEvent.nodeStart ++ [VEvent.completion]) true =
      ["✅ Generation complete!"] := by
  induction nodes with
  | nil => rfl
  | cons n rest ih => simpa [listenVerbosity] using ih

theorem listenVerbosity_enabled_length (nodes : List String) (notified : Bool) :
    (listenVerbosity true (nodes.map VEvent.nodeStart ++ [VEvent.completion])
        notified).length = nodes.length + 1 := by
  induction nodes generalizing notified with
  | nil => rfl
  | cons n rest ih => simpa [listenVerbosity] using ih notified

/-- C6: with node updates disabled, a stream of `n ≥ 1` node-start events
followed by the completion event invokes the callback exactly twice — one
"generation in progress" notification on the first node-start and the
completion message — all per-node notifications being suppressed; with node
updates enabled the same stream produces `n + 1` invocations, hence more
than 2 for `n ≥ 2`. -/
theorem node_update_verbosity (nodes : List String) :
    (nodes ≠ [] →
      listenVerbosity false (nodes.map VEvent.nodeStart ++ [VEvent.completion]) false =
        ["🔄 Generation in progress...", "✅ Generation complete!"]) ∧
    (2 ≤ nodes.length →
      2 < (listenVerbosity true (nodes.map VEvent.nodeStart ++ [VEvent.completion])
        false).length) := by
  constructor
  · intro hne
    rcases nodes with _ | ⟨n, rest⟩
    · exact absurd rfl hne
    · simp [listenVerbosity, listenVerbosity_disabled_notified rest]
  · intro hlen
    rw [listenVerbosity_enabled_length nodes false]
    omega

/-- Witness for C6: the spec's example of five intermediate node-start
events — 2 callbacks when disabled, 6 when enabled. -/
theorem node_update_verbosity_witness :
    ((["a", "b", "c", "d", "e"] : List String) ≠ [] ∧
      listenVerbosity false
        ((["a", "b", "c", "d", "e"] : List String).map VEvent.nodeStart ++
          [VEvent.completion]) false =
        ["🔄 Generation in progress...", "✅ Generation complete!"]) ∧
    (2 ≤ (["a", "b", "c", "d", "e"] : List String).length ∧
      2 < (listenVerbosity true
        ((["a", "b", "c", "d", "e"] : List String).map VEvent.nodeStart ++
          [VEvent.completion]) false).length) :=
  ⟨⟨by decide, (node_update_verbosity ["a", "b", "c", "d", "e"]).1 (by decide)⟩,
   ⟨by decide, (node_update_verbosity ["a", "b", "c", "d", "e"]).2 (by decide)⟩⟩

end ImageSmith
